import Mathlib

/-!
Verification of the deployment-execution core of the `agent` repository:
a shallow embedding in Lean 4 of the deployment engine
(`agent/deployment_manager.py`), the artifact helpers (`agent/artifact.py`),
the state store (`agent/state_store.py`), the release-spec parser
(`agent/release_spec.py`) and the reconciliation adapter's comparison verb
(`agent/symphony/device_provider.py`), together with theorems settling
properties C1-C10 of these components.

Machine conventions: Python dictionaries with string keys are embedded as
association lists in insertion order; Python `None`-or-value fields as
`Option`; Python truthiness of optional strings via `strTruthy`; wall-clock
poll loops as discrete ticks; child processes, downloads and archive
extraction as environment-supplied outcomes.  All definitions are plain
structural recursion so closed runs evaluate by `rfl`/`decide`.
-/

namespace Agent

/-- Python `dict.get(key)` on a string-keyed dict held as an association
list in insertion order. -/
def alookup {α : Type} : List (String × α) → String → Option α
  | [], _ => none
  | (k, v) :: rest, key => if k = key then some v else alookup rest key

/-- Python `dict[key] = value`: replace in place, else append (insertion
order preserved). -/
def aupsert {α : Type} : List (String × α) → String → α → List (String × α)
  | [], key, v => [(key, v)]
  | (k, w) :: rest, key, v =>
    if k = key then (key, v) :: rest else (k, w) :: aupsert rest key v

/-- Python truthiness of a `str | None` value: `None` and `""` are falsy. -/
def strTruthy : Option String → Bool
  | none => false
  | some s => s ≠ ""

/-! ## Process executor grace window (`DeploymentManager._wait_for_grace`)

The source polls `handle.popen.poll()` every 500 ms until
`time.monotonic()` reaches `deadline`.  The window is embedded as
`ticks` discrete poll instants; `poll k` is the exit code observed at the
k-th poll (`none` = still running). -/

/-- The poll loop of `_wait_for_grace`, lines 279-288 of
`deployment_manager.py`: at each remaining tick, an observed exit code
ends the wait as a failure — `0` included — and only exhausting the
window succeeds. -/
def waitGraceAux (poll : Nat → Option Int) : Nat → Nat → Bool × String
  | 0, _ => (false, "")
  | n + 1, k =>
    match poll k with
    | some c =>
      if c ≠ 0 then (true, "Process exited with " ++ toString c)
      else (true, "Process exited during grace period")
    | none => waitGraceAux poll n (k + 1)

/-- `DeploymentManager._wait_for_grace`, with the grace window of
`start_grace_seconds` discretised into `ticks` poll instants. Returns
(failed?, reason) exactly as the source does. -/
def wait_for_grace (poll : Nat → Option Int) (ticks : Nat) : Bool × String :=
  waitGraceAux poll ticks 0

/-! ## Artifact download retry loop (`artifact.download_with_checksum`)

`att k` is the outcome of the k-th call to `_download` (`none` = the bytes
streamed to `<dest>.part` hashed to the expected sha256 and the rename to
`dest` happened; `some e` = the attempt raised with message `e`, covering
both network errors and the checksum-mismatch `ValueError`). -/

/-- Observable trace of one `download_with_checksum` call. -/
structure DlTrace where
  /-- how many download attempts ran -/
  attempts : Nat
  /-- the durations slept between consecutive attempts, in order -/
  sleeps : List ℚ
  /-- whether `<dest>.part` existed after each attempt finished -/
  partAfter : List Bool
  /-- whether a file named `dest` exists at the end -/
  destHere : Bool
  /-- the exception raised, `none` when the call returned -/
  error : Option String
deriving DecidableEq, Repr

/-- Python `str(last_error)`: `None` prints as `"None"`. -/
def errText : Option String → String
  | none => "None"
  | some e => e

/-- The retry loop of `download_with_checksum` (`artifact.py` lines
35-57): `remaining` iterations of `for attempt in range(retries)` are
left, `attempt` is the current index, `lastErr` the last inner cause.
Each failed attempt unlinks `.part`; between attempts it sleeps
`backoff * 2 ^ attempt`; exhausting the loop raises
`RuntimeError(f"Failed to download artifact: {last_error}")`. -/
def dlAux (att : Nat → Option String) (backoff : ℚ) (retries : Nat)
    (lastErr : Option String) (attempt : Nat) : Nat → DlTrace
  | 0 =>
    { attempts := attempt, sleeps := [], partAfter := [], destHere := false,
      error := some ("Failed to download artifact: " ++ errText lastErr) }
  | r + 1 =>
    match att attempt with
    | none =>
      { attempts := attempt + 1, sleeps := [], partAfter := [false],
        destHere := true, error := none }
    | some e =>
      let rest := dlAux att backoff retries (some e) (attempt + 1) r
      if attempt < retries - 1 then
        { rest with sleeps := backoff * 2 ^ attempt :: rest.sleeps,
                    partAfter := false :: rest.partAfter }
      else
        { rest with partAfter := false :: rest.partAfter }

/-- `artifact.download_with_checksum`, abstracted over the per-attempt
outcome `att`. -/
def download_with_checksum (att : Nat → Option String) (backoff : ℚ)
    (retries : Nat) : DlTrace :=
  dlAux att backoff retries none 0 retries

/-! ## Safe archive extraction (`artifact.extract_archive` helpers)

Absolute paths are embedded as lists of segments (the path below `/`).
`os.path.abspath` is lexical normalisation (`..` pops, `.` drops, `..`
above the root clamps); `os.path.commonpath([d, t]) == d` holds exactly
when the normalised `d` is a segment prefix of the normalised `t`. -/

/-- Split a character list on `/` (the pieces, in order). -/
def splitPathAux : List Char → List Char → List String
  | [], cur => [String.mk cur.reverse]
  | c :: rest, cur =>
    if c = '/' then String.mk cur.reverse :: splitPathAux rest []
    else splitPathAux rest (c :: cur)

/-- Split a path string on `/`, dropping empty segments (as
`os.path` does for repeated separators). -/
def splitPath (s : String) : List String :=
  (splitPathAux s.data []).filter (fun seg => seg ≠ "")

/-- Does the path string start with `/` (an absolute path)? -/
def startsWithSlash (s : String) : Bool :=
  match s.data with
  | [] => false
  | c :: _ => c = '/' 

/-- Lexical normalisation of an absolute path's segments: the
accumulator holds the output so far, reversed. -/
def normAux : List String → List String → List String
  | acc, [] => acc.reverse
  | acc, seg :: rest =>
    if seg = "." then normAux acc rest
    else if seg = ".." then
      match acc with
      | [] => normAux [] rest
      | _ :: acc' => normAux acc' rest
    else normAux (seg :: acc) rest

/-- `os.path.abspath` on an already-absolute path: lexical
normalisation. -/
def normSegs (segs : List String) : List String :=
  normAux [] segs

/-- `os.path.join(dest, name)`: an absolute `name` discards `dest`. -/
def joinPath (dest : List String) (name : String) : List String :=
  if startsWithSlash name then splitPath name else dest ++ splitPath name

/-- `artifact._is_within_directory` (lines 105-108): both paths are
absolutised and the commonpath of the pair must be the directory. -/
def is_within_directory (directory target : List String) : Bool :=
  List.isPrefixOf (normSegs directory) (normSegs target)

/-- What a tar member is, as far as extraction safety goes. -/
inductive MemberKind where
  | file
  | dir
  | symlink (linkname : String)
  | hardlink (linkname : String)
deriving DecidableEq, Repr

/-- A tar archive member: its stored path and kind. -/
structure Member where
  name : String
  kind : MemberKind
deriving DecidableEq, Repr

/-- `artifact._safe_extract_tar` (lines 89-94): every member's *path*
(`os.path.join(destination, member.name)`) is checked against the
destination before anything is extracted; `ok ms` means `extractall`
then wrote every member (link targets are never inspected), `error`
means the check raised first and nothing was written. -/
def safe_extract_tar (members : List Member) (destination : List String) :
    Except String (List Member) :=
  if members.all
      (fun m => is_within_directory destination (joinPath destination m.name)) then
    Except.ok members
  else
    Except.error "Blocked archive entry outside destination"

/-- `artifact._safe_extract_zip` (lines 97-102): the same check over the
zip `namelist`. -/
def safe_extract_zip (names : List String) (destination : List String) :
    Except String (List String) :=
  if names.all
      (fun n => is_within_directory destination (joinPath destination n)) then
    Except.ok names
  else
    Except.error "Blocked archive entry outside destination"

/-- The files an extraction attempt placed under the destination:
everything on success, nothing when the pre-check raised. -/
def writtenMembers : Except String (List Member) → List Member
  | Except.ok ms => ms
  | Except.error _ => []

/-- Where a symlink member will point once extracted: its `linkname`
resolved against the member's own directory (tar link targets are
relative to the member's location), or taken as absolute. -/
def symlinkResolvedTarget (destination : List String) (m : Member) :
    Option (List String) :=
  match m.kind with
  | MemberKind.symlink l =>
    if startsWithSlash l then some (normSegs (splitPath l))
    else some (normSegs ((joinPath destination m.name).dropLast ++ splitPath l))
  | _ => none

/-! ## Release records (`release_spec.py` dataclasses and
`DeploymentManager._release_to_dict` / `_release_from_state`) -/

/-- `release_spec.ArtifactSpec`. -/
structure ArtifactSpec where
  uri : String
  checksum : String
deriving DecidableEq, Repr

/-- `release_spec.RuntimeSpec`; the environment dict in insertion order. -/
structure RuntimeSpec where
  start_command : String
  stop_command : Option String
  environment : List (String × String)
  working_directory : Option String
deriving DecidableEq, Repr

/-- `release_spec.ReleaseSpec`. -/
structure ReleaseSpec where
  name : String
  version : String
  artifact : ArtifactSpec
  runtime : RuntimeSpec
deriving DecidableEq, Repr

/-- The serialized release record `_release_to_dict` persists under
`releases[version]` (deployment_manager.py lines 364-376). -/
structure ReleaseRec where
  name : String
  version : String
  artifact_uri : String
  checksum : String
  start_command : String
  stop_command : Option String
  environment : List (String × String)
  working_directory : Option String
deriving DecidableEq, Repr

/-- `DeploymentManager._release_to_dict`. -/
def release_to_dict (r : ReleaseSpec) : ReleaseRec :=
  { name := r.name, version := r.version, artifact_uri := r.artifact.uri,
    checksum := r.artifact.checksum,
    start_command := r.runtime.start_command,
    stop_command := r.runtime.stop_command,
    environment := r.runtime.environment,
    working_directory := r.runtime.working_directory }

/-! ## The persisted per-stack state document (`state_store.py`)

`StateStore.load` always merges defaults, so every document the engine
sees has all keys; this typed view is that merged document.  (The raw,
presence-tracking document and `_merge_defaults` itself are embedded
separately below for the round-trip claim.) -/

/-- `deployment.timestamps`. -/
structure Timestamps where
  installed : Option String
  activated : Option String
  rolled_back : Option String
deriving DecidableEq, Repr

/-- `deployment` of the state document. -/
structure DeploymentDoc where
  state : Option String
  target_version : Option String
  last_failure : Option String
  last_failure_at : Option String
  timestamps : Timestamps
deriving DecidableEq, Repr

/-- `process` of the state document. -/
structure ProcessDoc where
  pid : Option Nat
  started_at : Option String
deriving DecidableEq, Repr

/-- The merged state document of one stack. -/
structure StackState where
  current : Option String
  previous : Option String
  deployment : DeploymentDoc
  process : ProcessDoc
  releases : List (String × ReleaseRec)
deriving DecidableEq, Repr

/-- `StateStore.record_release` (load, upsert `releases[version]`,
save). -/
def record_release (doc : StackState) (rec : ReleaseRec) : StackState :=
  { doc with releases := aupsert doc.releases rec.version rec }

/-- `StateStore.update_deployment_state`: sets `deployment.state`;
`target_version` only when given; a given `last_failure` also stamps
`last_failure_at`. -/
def update_deployment_state (doc : StackState) (stateValue : String)
    (targetVersion : Option String) (lastFailure : Option String)
    (now : String) : StackState :=
  let d0 := doc.deployment
  let d1 := { d0 with state := some stateValue }
  let d2 :=
    match targetVersion with
    | some t => { d1 with target_version := some t }
    | none => d1
  let d3 :=
    match lastFailure with
    | some f => { d2 with last_failure := some f, last_failure_at := some now }
    | none => d2
  { doc with deployment := d3 }

/-- `StateStore.set_current`: writes `current` and `previous` and stamps
`timestamps.activated`. -/
def set_current (doc : StackState) (cur prev : Option String)
    (now : String) : StackState :=
  { doc with
    current := cur
    previous := prev
    deployment := { doc.deployment with
      timestamps := { doc.deployment.timestamps with activated := some now } } }

/-- `StateStore.record_install_timestamp`: stamps
`timestamps.installed` and sets `deployment.target_version`. -/
def record_install_timestamp (doc : StackState) (version : String)
    (now : String) : StackState :=
  { doc with deployment := { doc.deployment with
      target_version := some version,
      timestamps := { doc.deployment.timestamps with installed := some now } } }

/-- `StateStore.record_rollback_timestamp`: stamps
`timestamps.rolled_back`; a truthy `version` also becomes
`deployment.target_version`. -/
def record_rollback_timestamp (doc : StackState) (version : Option String)
    (now : String) : StackState :=
  let d1 := { doc.deployment with
    timestamps := { doc.deployment.timestamps with rolled_back := some now } }
  let d2 := if strTruthy version then { d1 with target_version := version } else d1
  { doc with deployment := d2 }

/-- `StateStore.update_process`: overwrites both `process` fields. -/
def update_process (doc : StackState) (pid : Option Nat)
    (startedAt : Option String) : StackState :=
  { doc with process := { pid := pid, started_at := startedAt } }

/-- `DeploymentManager._release_from_state`: reconstruct a `ReleaseSpec`
from the `releases` map, `none` when the version has no record. -/
def release_from_state (doc : StackState) (version : String) :
    Option ReleaseSpec :=
  match alookup doc.releases version with
  | none => none
  | some r =>
    some { name := r.name, version := r.version,
           artifact := { uri := r.artifact_uri, checksum := r.checksum },
           runtime := { start_command := r.start_command,
                        stop_command := r.stop_command,
                        environment := r.environment,
                        working_directory := r.working_directory } }

/-! ## The per-stack filesystem and the effect environment -/

/-- The stack directory tree, as far as the engine observes it:
which `releases/<v>` and `releases/<v>.tmp` directories exist and what
the `current` / `previous` symlinks read as. -/
structure FS where
  releaseDirs : List String
  tmpDirs : List String
  currentLink : Option String
  previousLink : Option String
deriving DecidableEq, Repr

/-- The state document together with the stack's directory tree. -/
structure World where
  doc : StackState
  fs : FS
deriving DecidableEq, Repr

/-- Outcomes of the effectful steps of one engine call: which pids are
alive, how the artifact download and extraction go, and what the k-th
child-process start within the call returns (`pid` on spawn success) and
observes at each grace-window poll. -/
structure Env where
  pidAlive : Nat → Bool
  downloadResult : Except String Unit
  extractResult : Except String Unit
  startResult : Nat → Except String Nat
  gracePoll : Nat → Nat → Option Int
  graceTicks : Nat
  now : String

/-- `CommandExecutor.is_pid_running` (signal 0 probe; `None` pid is not
running, a permission error counts as alive inside `pidAlive`). -/
def is_pid_running (env : Env) : Option Nat → Bool
  | none => false
  | some p => env.pidAlive p

/-- `DeploymentManager._DummyProcess`-mediated
`_stop_current_process` as it acts on persisted state: the pid is read
from the *stale* document loaded at the top of the engine call; a falsy
pid returns untouched, otherwise the process fields are cleared after
the kill escalation.  (Signalling itself leaves no trace in the model.) -/
def stop_current_process (staleDoc doc : StackState) : StackState :=
  match staleDoc.process.pid with
  | none => doc
  | some p => if p = 0 then doc else update_process doc none none

/-- `DeploymentManager._activate_release` (lines 230-243): requires the
release directory, copies a differing `current` target to `previous`
(atomic symlink), then flips `current` unless it already points at this
version.  Raises when the release directory is missing. -/
def activate_release (fs : FS) (version : String) : Except String FS :=
  if version ∈ fs.releaseDirs then
    let target := "releases/" ++ version
    let fs1 :=
      match fs.currentLink with
      | some t => if t ≠ target then { fs with previousLink := some t } else fs
      | none => fs
    match fs.currentLink with
    | some t =>
      if t = target then Except.ok fs1
      else Except.ok { fs1 with currentLink := some target }
    | none => Except.ok { fs1 with currentLink := some target }
  else
    Except.error ("Release directory releases/" ++ version ++ " not found")

/-- `DeploymentManager._install_release` (lines 205-228): download (with
checksum) into `incoming`, stamp the install timestamp, extract into a
fresh `releases/<v>.tmp` and rename it over the final directory;
the `.tmp` is purged again on any failure.  Returns the raised message
(if any) alongside the state and tree as they stand after the attempt —
an exception does not roll persisted effects back. -/
def install_release (env : Env) (release : ReleaseSpec) (doc : StackState)
    (fs : FS) : Except String Unit × StackState × FS :=
  match env.downloadResult with
  | Except.error e => (Except.error e, doc, fs)
  | Except.ok _ =>
    let doc1 := record_install_timestamp doc release.version env.now
    match env.extractResult with
    | Except.error e =>
      (Except.error e, doc1, { fs with tmpDirs := fs.tmpDirs.erase release.version })
    | Except.ok _ =>
      (Except.ok (), doc1,
       { fs with tmpDirs := fs.tmpDirs.erase release.version,
                 releaseDirs := release.version :: fs.releaseDirs })

/-- `DeploymentOutcome`. -/
structure DeploymentOutcome where
  status : String
  message : String
  version : Option String
deriving DecidableEq, Repr

/-- One start attempt of `_start_release` (lines 245-277), the part
shared by the primary start and the rollback restart: transition to
`starting`, spawn the child (`k`-th spawn of this call), record the
pid, then wait out the grace window.  `inl (msg, doc)` is a start
failure with the message a rollback would be given, `inr doc` reached
`running`. -/
def start_attempt (env : Env) (k : Nat) (release : ReleaseSpec)
    (doc : StackState) : Sum (String × StackState) StackState :=
  let doc1 := update_deployment_state doc "starting" (some release.version) none env.now
  match env.startResult k with
  | Except.error e =>
    let doc2 := update_deployment_state doc1 "failed" (some release.version) (some e) env.now
    Sum.inl ("Start failed: " ++ e, doc2)
  | Except.ok pid =>
    let doc2 := update_process doc1 (some pid) (some env.now)
    let g := wait_for_grace (env.gracePoll k) env.graceTicks
    if g.1 then
      let doc3 := update_deployment_state doc2 "failed" (some release.version) (some g.2) env.now
      Sum.inl (g.2, doc3)
    else
      Sum.inr doc2

/-- `DeploymentManager._rollback_to` (lines 290-316): falsy or
unrecoverable `previous` fails outright; otherwise transition to
`rollback`, re-activate the previous release — an exception here is NOT
caught and escapes the engine —, persist `set_current(previous,
failed)`, stamp the rollback timestamp, and restart the previous
release with no further rollback target. -/
def rollback_to (env : Env) (k : Nat) (previousVersion : Option String)
    (failedRelease : ReleaseSpec) (doc : StackState) (fs : FS)
    (reason : String) :
    Except String (DeploymentOutcome × StackState × FS) :=
  if ¬ strTruthy previousVersion then
    let doc1 := update_deployment_state doc "failed" (some failedRelease.version)
      (some reason) env.now
    Except.ok ({ status := "failed", message := reason,
                 version := some failedRelease.version }, doc1, fs)
  else
    let pv := previousVersion.getD ""
    match release_from_state doc pv with
    | none =>
      let doc1 := update_deployment_state doc "failed" (some failedRelease.version)
        (some reason) env.now
      Except.ok ({ status := "failed", message := reason,
                   version := some failedRelease.version }, doc1, fs)
    | some rollbackRelease =>
      let doc1 := update_deployment_state doc "rollback" (some pv) (some reason) env.now
      match activate_release fs pv with
      | Except.error e => Except.error e
      | Except.ok fs1 =>
        let doc2 := set_current doc1 (some pv) (some failedRelease.version) env.now
        let doc3 := record_rollback_timestamp doc2 (some pv) env.now
        match start_attempt env k rollbackRelease doc3 with
        | Sum.inr doc4 =>
          Except.ok ({ status := "rolled_back",
                       message := "Rollback succeeded: " ++ reason,
                       version := some pv }, doc4, fs1)
        | Sum.inl (_, doc4) =>
          Except.ok ({ status := "failed",
                       message := "Rollback failed: " ++ reason,
                       version := some pv }, doc4, fs1)

/-- `DeploymentManager._start_release` (lines 245-277): one start
attempt; on failure either report `failed` (no truthy rollback target)
or hand over to `_rollback_to`. -/
def start_release (env : Env) (k : Nat) (release : ReleaseSpec)
    (doc : StackState) (previousVersion : Option String) (fs : FS) :
    Except String (DeploymentOutcome × StackState × FS) :=
  match start_attempt env k release doc with
  | Sum.inr doc1 =>
    Except.ok ({ status := "running", message := "Release started",
                 version := some release.version }, doc1, fs)
  | Sum.inl (msg, doc1) =>
    if ¬ strTruthy previousVersion then
      Except.ok ({ status := "failed", message := msg,
                   version := some release.version }, doc1, fs)
    else
      rollback_to env (k + 1) previousVersion release doc1 fs msg

/-- `DeploymentManager.apply_release` (lines 72-118), under the stack
lock: sweep `.tmp` dirs (`ensure_stack_ready`), upsert the release
record, the idempotence check, the install phase (caught), the
stop-current phase, the activate phase (caught), the start phase, and
the final transition to `running`.  An uncaught exception surfaces as
`Except.error`. -/
def apply_release (env : Env) (release : ReleaseSpec) (w : World) :
    Except String (DeploymentOutcome × World) :=
  let fs0 : FS := { w.fs with tmpDirs := [] }
  let state := w.doc
  let doc1 := record_release state (release_to_dict release)
  let current := state.current
  let pid := state.process.pid
  if current = some release.version ∧ is_pid_running env pid then
    Except.ok ({ status := "noop", message := "Release already active",
                 version := some release.version },
               { doc := doc1, fs := fs0 })
  else
    let installStep : Except (String × StackState × FS) (StackState × FS) :=
      if release.version ∈ fs0.releaseDirs then Except.ok (doc1, fs0)
      else
        let doc2 := update_deployment_state doc1 "installing" (some release.version)
          none env.now
        match install_release env release doc2 fs0 with
        | (Except.ok _, d, f) => Except.ok (d, f)
        | (Except.error e, d, f) => Except.error (e, d, f)
    match installStep with
    | Except.error (e, d, f) =>
      let d2 := update_deployment_state d "failed" (some release.version) (some e) env.now
      Except.ok ({ status := "failed", message := e, version := some release.version },
                 { doc := d2, fs := f })
    | Except.ok (doc2, fs1) =>
      let stopNeeded := strTruthy current ∧ current ≠ some release.version
      let previous := if stopNeeded then current else state.previous
      let doc3 :=
        if stopNeeded then
          match release_from_state state (previous.getD "") with
          | some _ => stop_current_process state doc2
          | none => doc2
        else doc2
      let doc4 := update_deployment_state doc3 "activating" (some release.version)
        none env.now
      match activate_release fs1 release.version with
      | Except.error e =>
        let d := update_deployment_state doc4 "failed" (some release.version)
          (some e) env.now
        Except.ok ({ status := "failed", message := e, version := some release.version },
                   { doc := d, fs := fs1 })
      | Except.ok fs2 =>
        let doc5 := set_current doc4 (some release.version) previous env.now
        match start_release env 0 release doc5 previous fs2 with
        | Except.error e => Except.error e
        | Except.ok (outcome, doc6, fs3) =>
          if outcome.status ≠ "running" then
            Except.ok (outcome, { doc := doc6, fs := fs3 })
          else
            let doc7 := update_deployment_state doc6 "running" (some release.version)
              none env.now
            Except.ok ({ status := "running", message := "Release activated",
                         version := some release.version },
                       { doc := doc7, fs := fs3 })

/-- `DeploymentManager.remove_release` (lines 120-141), under the stack
lock: a non-current version's directory is purged (`removed`) or found
absent (`noop`) with no state write; the current version is stopped,
its `current` symlink removed, and `set_current(None, previous)`
persisted (`stopped`). -/
def remove_release (env : Env) (release : ReleaseSpec) (w : World) :
    Except String (DeploymentOutcome × World) :=
  let state := w.doc
  let current := state.current
  let previous := state.previous
  if current ≠ some release.version then
    if release.version ∈ w.fs.releaseDirs then
      Except.ok ({ status := "removed", message := "Release directory removed",
                   version := some release.version },
                 { doc := state,
                   fs := { w.fs with releaseDirs := w.fs.releaseDirs.erase release.version } })
    else
      Except.ok ({ status := "noop", message := "Release not active",
                   version := some release.version }, w)
  else
    let doc1 := stop_current_process state state
    let fs1 := { w.fs with currentLink := none }
    let doc2 := set_current doc1 none previous env.now
    Except.ok ({ status := "stopped", message := "Release stopped",
                 version := some release.version },
               { doc := doc2, fs := fs1 })

/-! ## The raw state file and `StateStore.load` / `save` / `_merge_defaults`

Here key *presence* matters (`if key not in data`, `setdefault`), so each
key of the on-disk JSON document is an outer `Option` (present?) around
its value (which may itself be JSON `null` = inner `none`). -/

/-- The `deployment` object as stored, presence-tracking. -/
structure RawDeployment where
  state : Option (Option String)
  target_version : Option (Option String)
  last_failure : Option (Option String)
  last_failure_at : Option (Option String)
  timestamps : Option Timestamps
deriving DecidableEq, Repr

/-- The state document as stored on disk, presence-tracking. -/
structure RawDoc where
  current : Option (Option String)
  previous : Option (Option String)
  deployment : Option RawDeployment
  process : Option ProcessDoc
  releases : Option (List (String × ReleaseRec))
deriving DecidableEq, Repr

/-- `StateStore._default_state` (state_store.py lines 109-123). -/
def default_state : RawDoc :=
  { current := some none
    previous := some none
    deployment := some
      { state := some (some "idle")
        target_version := some none
        last_failure := some none
        last_failure_at := some none
        timestamps := some { installed := none, activated := none, rolled_back := none } }
    process := some { pid := none, started_at := none }
    releases := some [] }

/-- `StateStore._merge_defaults` (lines 125-136): missing top-level keys
get the default value; inside `deployment` each missing key is
set-defaulted; `process` and `releases` are set-defaulted as wholes. -/
def merge_defaults (d : RawDoc) : RawDoc :=
  let dep0 : RawDeployment :=
    d.deployment.getD
      { state := none, target_version := none, last_failure := none,
        last_failure_at := none, timestamps := none }
  { current := some (d.current.getD none)
    previous := some (d.previous.getD none)
    deployment := some
      { state := some (dep0.state.getD (some "idle"))
        target_version := some (dep0.target_version.getD none)
        last_failure := some (dep0.last_failure.getD none)
        last_failure_at := some (dep0.last_failure_at.getD none)
        timestamps := some (dep0.timestamps.getD
          { installed := none, activated := none, rolled_back := none }) }
    process := some (d.process.getD { pid := none, started_at := none })
    releases := some (d.releases.getD []) }

/-- The state file's condition: absent, unreadable/corrupt, or a parsed
document.  `json.dump`/`json.load` round-trip the document itself. -/
inductive StateFile where
  | missing
  | corrupt
  | stored (d : RawDoc)
deriving DecidableEq, Repr

/-- `StateStore.load` (lines 32-40): the default document for a missing
or corrupt file, otherwise the parsed document merged with defaults. -/
def load : StateFile → RawDoc
  | StateFile.missing => default_state
  | StateFile.corrupt => default_state
  | StateFile.stored d => merge_defaults d

/-- `StateStore.save` (lines 42-47): writes `<path>.tmp` and atomically
renames it onto `<path>`, leaving the document stored as given. -/
def save (d : RawDoc) : StateFile :=
  StateFile.stored d

/-! ## JSON values, the release-spec parser (`release_spec.py`) and the
reconciliation comparison verb (`device_provider.needs_update`) -/

/-- A decoded JSON value (what `json.loads` yields); objects keep
insertion order. -/
inductive JVal where
  | null
  | bool (b : Bool)
  | num (n : Int)
  | str (s : String)
  | arr (xs : List JVal)
  | obj (fields : List (String × JVal))

/-- Python truthiness of a JSON value. -/
def jTruthy : JVal → Bool
  | JVal.null => false
  | JVal.bool b => b
  | JVal.num n => n ≠ 0
  | JVal.str s => s ≠ ""
  | JVal.arr xs => ¬ xs.isEmpty
  | JVal.obj fs => ¬ fs.isEmpty

/-- Python truthiness of an optional JSON value (`None` is falsy). -/
def optTruthy : Option JVal → Bool
  | none => false
  | some j => jTruthy j

/-- `value.get(key)`: `none` for a missing key, an `AttributeError`
(`Except.error`) when the receiver is not a dict. -/
def jDictGet : JVal → String → Except Unit (Option JVal)
  | JVal.obj fs, k => Except.ok (alookup fs k)
  | _, _ => Except.error ()

/-- Python `str(value)` for values landing in an environment map;
scalars render exactly, containers are placeholders never inspected by
any claim. -/
def pyStr : JVal → String
  | JVal.null => "None"
  | JVal.bool true => "True"
  | JVal.bool false => "False"
  | JVal.num n => toString n
  | JVal.str s => s
  | JVal.arr _ => "[...]"
  | JVal.obj _ => "\x7b...\x7d"

/-- `release_spec._extract_stack_properties`: prefer
`features.stack.properties` when it is a dict, then a `stack` dict,
else `{}`.  Raises (as the source does) when `payload` or a present
non-dict `features` is `.get`-ed. -/
def extract_stack_properties (payload : JVal) :
    Except Unit (List (String × JVal)) := do
  let features := (← jDictGet payload "features").getD (JVal.obj [])
  let stackFeature := (← jDictGet features "stack").getD (JVal.obj [])
  let props ← jDictGet stackFeature "properties"
  match props with
  | some (JVal.obj fs) => return fs
  | _ =>
    match (← jDictGet payload "stack") with
    | some (JVal.obj fs) => return fs
    | _ => return []

/-- `release_spec._nested`: walk keys while the value is a dict, return
the end value only when it is a string. -/
def nestedStr : JVal → List String → Option String
  | cur, [] => match cur with | JVal.str s => some s | _ => none
  | cur, k :: ks =>
    match cur with
    | JVal.obj fs => nestedStr ((alookup fs k).getD JVal.null) ks
    | _ => none

/-- Python `str.strip()`: drop whitespace from both ends. -/
def pyStrip (s : String) : String :=
  String.mk (((s.data.dropWhile Char.isWhitespace).reverse.dropWhile
    Char.isWhitespace).reverse)

/-- `release_spec._first_str`: the first candidate that is a string with
non-blank strip. -/
def firstStr : List (Option JVal) → Option String
  | [] => none
  | v :: rest =>
    match v with
    | some (JVal.str s) => if pyStrip s ≠ "" then some s else firstStr rest
    | _ => firstStr rest

/-- `release_spec._first_dict`: the first candidate that is a dict. -/
def firstDict : List (Option JVal) → Option (List (String × JVal))
  | [] => none
  | v :: rest =>
    match v with
    | some (JVal.obj fs) => some fs
    | _ => firstDict rest

/-- `section.get(key) if section else None`: an absent or empty (falsy)
section yields `None`. -/
def sectionGet (sect : Option (List (String × JVal))) (k : String) :
    Option JVal :=
  match sect with
  | some fs => if fs.isEmpty then none else alookup fs k
  | none => none

/-- `release_spec.parse_release_payload`: field extraction with the
source's lookup precedence and required-field validation; any raised
error (missing field, non-dict `.get` receiver) is `Except.error`. -/
def parse_release_payload (payload : JVal) : Except Unit ReleaseSpec := do
  let stackProps ← extract_stack_properties payload
  let name := firstStr [← jDictGet payload "name", alookup stackProps "name",
    (nestedStr payload ["metadata", "name"]).map JVal.str,
    ← jDictGet payload "thingId"]
  let version := firstStr [← jDictGet payload "version",
    alookup stackProps "version",
    (nestedStr payload ["metadata", "version"]).map JVal.str,
    (nestedStr payload ["attributes", "version"]).map JVal.str]
  let artifactSection := firstDict [← jDictGet payload "artifact",
    alookup stackProps "artifact"]
  let artifactUri := firstStr [← jDictGet payload "artifact_uri",
    sectionGet artifactSection "uri"]
  let checksum := firstStr [← jDictGet payload "checksum",
    sectionGet artifactSection "checksum"]
  let runtimeSection := firstDict [← jDictGet payload "runtime",
    alookup stackProps "runtime"]
  let startCommand := firstStr [← jDictGet payload "start_command",
    sectionGet runtimeSection "start_command"]
  let stopCommand := firstStr [← jDictGet payload "stop_command",
    sectionGet runtimeSection "stop_command"]
  let workingDirectory := firstStr [← jDictGet payload "working_directory",
    sectionGet runtimeSection "working_directory"]
  let environment := (firstDict [← jDictGet payload "environment",
    sectionGet runtimeSection "environment"]).getD []
  match name with
  | none => Except.error ()
  | some nm =>
    match version with
    | none => Except.error ()
    | some ver =>
      match artifactUri with
      | none => Except.error ()
      | some uri =>
        match checksum with
        | none => Except.error ()
        | some ck =>
          match startCommand with
          | none => Except.error ()
          | some sc =>
            Except.ok
              { name := nm, version := ver,
                artifact := { uri := uri, checksum := ck },
                runtime := { start_command := sc,
                             stop_command := stopCommand,
                             environment := environment.map
                               (fun p => (p.1, pyStr p.2)),
                             working_directory := workingDirectory } }

/-- Modelled from the spec: the SDK `ComponentSpec` record is not under
`src/` — per the spec a component is a `{name, properties:{data:…}}`
record whose `data` is a JSON object, a raw/base64 string or raw bytes.
A string or bytes payload is represented by the result of its
base64/UTF-8/JSON decoding (`encoded none` = that pipeline raised);
`absent` is a missing `data` key; `unsupported` any other type. -/
inductive StackData where
  | absent
  | obj (fields : List (String × JVal))
  | encoded (result : Option JVal)
  | unsupported

/-- Modelled from the spec: a desired-state component (`{name,
properties:{data:…}}`). -/
structure ComponentSpec where
  name : Option String
  data : StackData

/-- `MutoDeviceProvider._extract_stack_payload` with
`allow_registry_lookup=False` (the form `needs_update` uses): a dict
passes through, strings/bytes go through the decode pipeline, anything
else is `"Unsupported payload format"`, a JSON decode failure is
`"Failed to parse stack data: …"`. -/
def extract_stack_payload (c : ComponentSpec) : Option JVal × Option String :=
  match c.data with
  | StackData.obj fs => (some (JVal.obj fs), none)
  | StackData.encoded (some j) => (some j, none)
  | StackData.encoded none => (none, some "Failed to parse stack data")
  | StackData.absent => (none, some "Unsupported payload format")
  | StackData.unsupported => (none, some "Unsupported payload format")

/-- `if comp.name:` — the component has a truthy name. -/
def nameTruthy (c : ComponentSpec) : Bool :=
  strTruthy c.name

/-- The dict comprehension `{comp.name: comp for comp in pack.current if
comp.name}` read at a key: the last current component bearing that
truthy name. -/
def currentByName (cs : List ComponentSpec) (n : String) : Option ComponentSpec :=
  (cs.filter (fun c => nameTruthy c && c.name == some n)).getLast?

/-- The `for desired in pack.desired` loop of
`MutoDeviceProvider.needs_update` (device_provider.py lines 227-246). -/
def needs_update_go (byName : String → Option ComponentSpec) :
    List ComponentSpec → Bool
  | [] => false
  | d :: rest =>
    if ¬ nameTruthy d then needs_update_go byName rest
    else
      match byName (d.name.getD "") with
      | none => true
      | some c =>
        if ¬ optTruthy (extract_stack_payload d).1 ∨
            ¬ optTruthy (extract_stack_payload c).1 then true
        else
          match parse_release_payload ((extract_stack_payload d).1.getD JVal.null),
                parse_release_payload ((extract_stack_payload c).1.getD JVal.null) with
          | Except.ok rd, Except.ok rc =>
            if rd.version ≠ rc.version then true else needs_update_go byName rest
          | _, _ => true

/-- `MutoDeviceProvider.needs_update`. -/
def needs_update (desired current : List ComponentSpec) : Bool :=
  needs_update_go (currentByName current) desired

/-! ## Lemmas about the grace-window poll loop -/

/-- The poll loop succeeds exactly when every poll inside the window
observes the process still running. -/
theorem waitGraceAux_false_iff (poll : Nat → Option Int) :
    ∀ n k, (waitGraceAux poll n k).1 = false ↔ ∀ j, j < n → poll (k + j) = none := by
  intro n
  induction n with
  | zero =>
    intro k
    simp [waitGraceAux]
  | succ m ih =>
    intro k
    constructor
    · intro h j hj
      cases hp : poll k with
      | some c =>
        exfalso
        simp only [waitGraceAux, hp] at h
        by_cases hc : c = 0 <;> simp [hc] at h
      | none =>
        simp only [waitGraceAux, hp] at h
        cases j with
        | zero => simpa using hp
        | succ i =>
          have hx := (ih (k + 1)).mp h i (by omega)
          have e : k + 1 + i = k + (i + 1) := by omega
          rwa [e] at hx
    · intro h
      have h0 : poll k = none := by simpa using h 0 (by omega)
      simp only [waitGraceAux, h0]
      apply (ih (k + 1)).mpr
      intro j hj
      have hx := h (j + 1) (by omega)
      have e : k + (j + 1) = k + 1 + j := by omega
      rwa [e] at hx

/-- When the first observed exit is at tick `t` inside the window, the
wait returns the failure message determined by the exit code — the
dedicated "exited during grace period" message for exit code 0. -/
theorem waitGraceAux_first_exit (poll : Nat → Option Int) (c : Int) :
    ∀ t n k, t < n → (∀ j, j < t → poll (k + j) = none) → poll (k + t) = some c →
      waitGraceAux poll n k =
        (if c ≠ 0 then (true, "Process exited with " ++ toString c)
         else (true, "Process exited during grace period")) := by
  intro t
  induction t with
  | zero =>
    intro n k hn _ hp
    cases n with
    | zero => omega
    | succ m =>
      have hp' : poll k = some c := by simpa using hp
      simp [waitGraceAux, hp']
  | succ i ih =>
    intro n k hn hnone hp
    cases n with
    | zero => omega
    | succ m =>
      have h0 : poll k = none := by simpa using hnone 0 (by omega)
      simp only [waitGraceAux, h0]
      apply ih m (k + 1) (by omega)
      · intro j hj
        have hx := hnone (j + 1) (by omega)
        have e : k + (j + 1) = k + 1 + j := by omega
        rwa [e] at hx
      · have e : k + (i + 1) = k + 1 + i := by omega
        rwa [e] at hp

/-- C4: for every started child process that exits at any time inside
the start-grace window, the start phase treats it as a start failure,
even when the exit code is 0; staying alive through the whole window is
the only way the start phase succeeds.  (Time is the source's own poll
grid: `gracePoll k t` is what `popen.poll()` reports at the t-th 500 ms
poll of the k-th start.) -/
theorem start_phase_fails_on_any_grace_exit (env : Env) (k : Nat)
    (release : ReleaseSpec) (doc : StackState) :
    ((∃ d, start_attempt env k release doc = Sum.inr d) ↔
      (∃ pid, env.startResult k = Except.ok pid) ∧
        ∀ t, t < env.graceTicks → env.gracePoll k t = none) ∧
    (∀ pid t, env.startResult k = Except.ok pid → t < env.graceTicks →
      (∀ j, j < t → env.gracePoll k j = none) → env.gracePoll k t = some 0 →
      ∃ d, start_attempt env k release doc =
        Sum.inl ("Process exited during grace period", d)) := by
  constructor
  · cases hs : env.startResult k with
    | error e =>
      constructor
      · rintro ⟨d, hd⟩
        simp [start_attempt, hs] at hd
      · rintro ⟨⟨pid, hpid⟩, -⟩
        exact absurd hpid (by simp)
    | ok pid =>
      cases hg : (wait_for_grace (env.gracePoll k) env.graceTicks).1 with
      | true =>
        constructor
        · rintro ⟨d, hd⟩
          simp [start_attempt, hs, hg] at hd
        · rintro ⟨-, hall⟩
          have hfalse : (wait_for_grace (env.gracePoll k) env.graceTicks).1 = false := by
            have hx := (waitGraceAux_false_iff (env.gracePoll k) env.graceTicks 0).mpr
              (fun j hj => by simpa using hall j hj)
            simpa [wait_for_grace] using hx
          rw [hg] at hfalse
          exact absurd hfalse (by simp)
      | false =>
        constructor
        · intro _
          refine ⟨⟨pid, rfl⟩, fun t ht => ?_⟩
          have hx := (waitGraceAux_false_iff (env.gracePoll k) env.graceTicks 0).mp
            (by simpa [wait_for_grace] using hg)
          simpa using hx t ht
        · intro _
          refine ⟨update_process (update_deployment_state doc "starting"
            (some release.version) none env.now) (some pid) (some env.now), ?_⟩
          simp [start_attempt, hs, hg]
  · intro pid t hs ht hnone hp
    have hw : wait_for_grace (env.gracePoll k) env.graceTicks =
        (true, "Process exited during grace period") := by
      have hx := waitGraceAux_first_exit (env.gracePoll k) 0 t env.graceTicks 0 ht
        (fun j hj => by simpa using hnone j hj) (by simpa using hp)
      simpa [wait_for_grace] using hx
    refine ⟨update_deployment_state (update_process (update_deployment_state doc
      "starting" (some release.version) none env.now) (some pid) (some env.now))
      "failed" (some release.version) (some "Process exited during grace period")
      env.now, ?_⟩
    simp [start_attempt, hs, hw]


/-! ## Lemmas about the download retry loop -/

/-- When every remaining attempt fails, the retry loop runs them all,
sleeps the exponential backoffs between them, leaves no `.part` behind,
creates no `dest`, and raises carrying the last cause. -/
theorem dlAux_all_fail (att : Nat → Option String) (backoff : ℚ) (retries : Nat)
    (e : Nat → String) :
    ∀ r a lastErr, a + r = retries →
      (∀ j, a ≤ j → j < retries → att j = some (e j)) →
      dlAux att backoff retries lastErr a r =
        { attempts := retries
          sleeps := (List.range' a (r - 1)).map (fun j => backoff * 2 ^ j)
          partAfter := List.replicate r false
          destHere := false
          error := some ("Failed to download artifact: " ++
            (if r = 0 then errText lastErr else e (retries - 1))) } := by
  intro r
  induction r with
  | zero =>
    intro a lastErr ha _
    simp only [Nat.add_zero] at ha
    subst ha
    simp [dlAux]
  | succ r ih =>
    intro a lastErr ha h
    have hatt : att a = some (e a) := h a (le_refl a) (by omega)
    have ih' := ih (a + 1) (some (e a)) (by omega) (fun j h1 h2 => h j (by omega) h2)
    simp only [dlAux, hatt, ih']
    cases r with
    | zero =>
      have hc : ¬ a < retries - 1 := by omega
      have haeq : a = retries - 1 := by omega
      rw [if_neg hc]
      simp [errText, haeq, List.replicate_succ]
    | succ r' =>
      have hc : a < retries - 1 := by omega
      rw [if_pos hc]
      simp [List.range'_succ, List.replicate_succ]

/-- C5: for every download whose fetched bytes never hash to the
declared sha256, `download_with_checksum` makes exactly `retries`
attempts in total, sleeping `backoff * 2 ^ attempt` between consecutive
attempts, unlinks the transient `.part` file after each failed attempt,
finally raises an error carrying the last inner cause, and no file named
`dest` exists afterwards. -/
theorem download_never_matching_checksum (att : Nat → Option String)
    (backoff : ℚ) (retries : Nat) (e : Nat → String) (hpos : 0 < retries)
    (hfail : ∀ j, j < retries → att j = some (e j)) :
    download_with_checksum att backoff retries =
      { attempts := retries
        sleeps := (List.range (retries - 1)).map (fun j => backoff * 2 ^ j)
        partAfter := List.replicate retries false
        destHere := false
        error := some ("Failed to download artifact: " ++ e (retries - 1)) } := by
  have hx := dlAux_all_fail att backoff retries e retries 0 none (by omega)
    (fun j _ h2 => hfail j h2)
  rw [download_with_checksum, hx]
  have hr : retries ≠ 0 := by omega
  simp [hr, List.range_eq_range']

/-- The per-attempt failures used by the C5 witness. -/
def attAllFail : Nat → Option String :=
  fun j => some ("checksum mismatch on attempt " ++ toString j)

/-- Witness for C5 at `retries = 2`, `backoff = 3`. -/
theorem download_never_matching_checksum_witness :
    download_with_checksum attAllFail 3 2 =
      { attempts := 2
        sleeps := [(3 : ℚ)]
        partAfter := [false, false]
        destHere := false
        error := some "Failed to download artifact: checksum mismatch on attempt 1" } := by
  rw [download_never_matching_checksum attAllFail 3 2
    (fun j => "checksum mismatch on attempt " ++ toString j) (by decide)
    (fun j _ => rfl)]
  norm_num [List.range_succ]
  exact ⟨by decide, by decide⟩


/-! ## Claim C2: archive extraction safety -/

/-- The destination directory used by the C2 exhibits. -/
def destC2 : List String := ["srv", "stacks", "demo", "releases", "1.0.0"]

/-- A tar member whose own path stays inside the destination but whose
symlink target escapes it. -/
def escapingLinkMember : Member :=
  { name := "link", kind := MemberKind.symlink "../../../../../etc/passwd" }

/-- C2 counterexample: an archive whose only member is a symlink with an
escaping link target is extracted in full — `_safe_extract_tar` checks
only the member's own path, so the extraction does not fail even though
the resolved link target lies outside the destination. -/
theorem extract_archive_link_target_unchecked :
    safe_extract_tar [escapingLinkMember] destC2 = Except.ok [escapingLinkMember] ∧
    writtenMembers (safe_extract_tar [escapingLinkMember] destC2) =
      [escapingLinkMember] ∧
    symlinkResolvedTarget destC2 escapingLinkMember = some ["etc", "passwd"] ∧
    is_within_directory destC2 ["etc", "passwd"] = false := by
  refine ⟨rfl, rfl, rfl, rfl⟩

/-- C2 (amended): for every archive containing a member whose *own*
resolved path escapes the destination, the whole extraction fails and
nothing is written — for tar members and zip names alike; symlink and
hardlink members are checked only by their member path, never by their
link target. -/
theorem extract_archive_blocks_escaping_paths (members : List Member)
    (destination : List String)
    (hm : ∃ m, m ∈ members ∧
      is_within_directory destination (joinPath destination m.name) = false) :
    safe_extract_tar members destination =
      Except.error "Blocked archive entry outside destination" ∧
    writtenMembers (safe_extract_tar members destination) = [] ∧
    safe_extract_zip (members.map Member.name) destination =
      Except.error "Blocked archive entry outside destination" ∧
    (safe_extract_tar members destination = Except.ok members ↔
      ∀ m, m ∈ members →
        is_within_directory destination (joinPath destination m.name) = true) := by
  obtain ⟨m, hmem, hesc⟩ := hm
  have hall : members.all
      (fun m => is_within_directory destination (joinPath destination m.name)) = false := by
    rw [List.all_eq_false]
    exact ⟨m, hmem, by simp [hesc]⟩
  have hallz : (members.map Member.name).all
      (fun n => is_within_directory destination (joinPath destination n)) = false := by
    rw [List.all_eq_false]
    exact ⟨m.name, List.mem_map_of_mem Member.name hmem, by simp [hesc]⟩
  refine ⟨?_, ?_, ?_, ?_⟩
  · simp [safe_extract_tar, hall]
  · simp [writtenMembers, safe_extract_tar, hall]
  · simp [safe_extract_zip, hallz]
  · constructor
    · intro h
      exfalso
      simp [safe_extract_tar, hall] at h
    · intro h
      exact absurd (h m hmem) (by simp [hesc])

/-- Witness for the amended C2: a plain file member reaching above the
destination via `..` segments. -/
def dotdotMember : Member :=
  { name := "../evil.txt", kind := MemberKind.file }

/-- Witness for C2 at a concrete escaping archive. -/
theorem extract_archive_blocks_escaping_paths_witness :
    safe_extract_tar [dotdotMember] destC2 =
      Except.error "Blocked archive entry outside destination" ∧
    writtenMembers (safe_extract_tar [dotdotMember] destC2) = [] := by
  have h := extract_archive_blocks_escaping_paths [dotdotMember] destC2
    ⟨dotdotMember, by simp, by decide⟩
  exact ⟨h.1, h.2.1⟩


/-! ## Claim C8: state-store round trip and defaults -/

/-- C8: `save` followed by `load` yields the saved document after
default-merge; the merge only fills absent keys (each present key keeps
its value, expressed by the `getD` equations); merging is idempotent;
and a missing or corrupt state file loads as the default document in
which no key is missing — `current`, `previous`, `deployment` with
state `idle`, `process` and `releases` are all present. -/
theorem state_store_round_trip (d : RawDoc) :
    load (save d) = merge_defaults d ∧
    (merge_defaults d).current = some (d.current.getD none) ∧
    (merge_defaults d).previous = some (d.previous.getD none) ∧
    (merge_defaults d).process = some (d.process.getD { pid := none, started_at := none }) ∧
    (merge_defaults d).releases = some (d.releases.getD []) ∧
    merge_defaults (merge_defaults d) = merge_defaults d ∧
    load StateFile.missing = default_state ∧
    load StateFile.corrupt = default_state ∧
    default_state.current = some none ∧
    default_state.previous = some none ∧
    default_state.process = some { pid := none, started_at := none } ∧
    default_state.releases = some [] ∧
    default_state.deployment = some
      { state := some (some "idle"), target_version := some none,
        last_failure := some none, last_failure_at := some none,
        timestamps := some { installed := none, activated := none, rolled_back := none } } :=
  ⟨rfl, rfl, rfl, rfl, rfl, rfl, rfl, rfl, rfl, rfl, rfl, rfl, rfl⟩

/-! ## Claims C7 and C10: `remove_release` -/

/-- `_stop_current_process` only touches the `process` fields of the
persisted document. -/
theorem stop_current_process_frame (a b : StackState) :
    (stop_current_process a b).current = b.current ∧
    (stop_current_process a b).previous = b.previous ∧
    (stop_current_process a b).deployment = b.deployment ∧
    (stop_current_process a b).releases = b.releases := by
  unfold stop_current_process
  cases a.process.pid with
  | none => exact ⟨rfl, rfl, rfl, rfl⟩
  | some p => by_cases h0 : p = 0 <;> simp [h0, update_process]

/-- C7: removing a non-current version purges its directory (`removed`)
or is a `noop`, with the state document untouched; removing the current
version stops the recorded process, removes the `current` symlink,
persists `set_current(None, previous)` and returns `stopped` — and in no
case is the `previous` symlink or the `previous` state entry (or any
`releases` entry) deleted. -/
theorem remove_release_behaviour (env : Env) (r : ReleaseSpec) (w : World) :
    (w.doc.current ≠ some r.version → r.version ∈ w.fs.releaseDirs →
      remove_release env r w =
        Except.ok ({ status := "removed", message := "Release directory removed",
                     version := some r.version },
          { doc := w.doc,
            fs := { w.fs with releaseDirs := w.fs.releaseDirs.erase r.version } })) ∧
    (w.doc.current ≠ some r.version → r.version ∉ w.fs.releaseDirs →
      remove_release env r w =
        Except.ok ({ status := "noop", message := "Release not active",
                     version := some r.version }, w)) ∧
    (w.doc.current = some r.version →
      ∃ w', remove_release env r w =
          Except.ok ({ status := "stopped", message := "Release stopped",
                       version := some r.version }, w') ∧
        w'.fs.currentLink = none ∧
        w'.fs.previousLink = w.fs.previousLink ∧
        w'.fs.releaseDirs = w.fs.releaseDirs ∧
        w'.fs.tmpDirs = w.fs.tmpDirs ∧
        w'.doc.current = none ∧
        w'.doc.previous = w.doc.previous ∧
        w'.doc.releases = w.doc.releases ∧
        (∀ p, w.doc.process.pid = some p → p ≠ 0 →
          w'.doc.process = { pid := none, started_at := none })) := by
  refine ⟨?_, ?_, ?_⟩
  · intro hne hmem
    simp [remove_release, hne, hmem]
  · intro hne hmem
    simp [remove_release, hne, hmem]
  · intro hcur
    refine ⟨World.mk
      (set_current (stop_current_process w.doc w.doc) none w.doc.previous env.now)
      { w.fs with currentLink := none },
      ?_, rfl, rfl, rfl, rfl, rfl, ?_, ?_, ?_⟩
    · simp [remove_release, hcur]
    · simp [set_current, (stop_current_process_frame w.doc w.doc).2.1]
    · simp [set_current, (stop_current_process_frame w.doc w.doc).2.2.2]
    · intro p hp hp0
      simp [set_current, stop_current_process, hp, hp0, update_process]

/-- C10: a `remove_release` of a non-current version never writes the
state document — `current`, `previous`, `process` and the whole
`releases` map (the removed version's entry included) are unchanged for
both the `removed` and the `noop` outcome; only the release directory
is deleted from disk, the symlinks and `.tmp` directories untouched. -/
theorem remove_non_current_no_state_write (env : Env) (r : ReleaseSpec)
    (w : World) (hne : w.doc.current ≠ some r.version) :
    ∃ out w', remove_release env r w = Except.ok (out, w') ∧
      w'.doc = w.doc ∧
      alookup w'.doc.releases r.version = alookup w.doc.releases r.version ∧
      w'.fs.currentLink = w.fs.currentLink ∧
      w'.fs.previousLink = w.fs.previousLink ∧
      w'.fs.tmpDirs = w.fs.tmpDirs ∧
      (r.version ∈ w.fs.releaseDirs →
        out = { status := "removed", message := "Release directory removed",
                version := some r.version } ∧
        w'.fs.releaseDirs = w.fs.releaseDirs.erase r.version) ∧
      (r.version ∉ w.fs.releaseDirs →
        out = { status := "noop", message := "Release not active",
                version := some r.version } ∧
        w' = w) := by
  by_cases hmem : r.version ∈ w.fs.releaseDirs
  · refine ⟨DeploymentOutcome.mk "removed" "Release directory removed" (some r.version),
      { doc := w.doc, fs := { w.fs with releaseDirs := w.fs.releaseDirs.erase r.version } },
      ?_, rfl, rfl, rfl, rfl, rfl, fun _ => ⟨rfl, rfl⟩, fun h => absurd hmem h⟩
    simp [remove_release, hne, hmem]
  · refine ⟨DeploymentOutcome.mk "noop" "Release not active" (some r.version), w,
      ?_, rfl, rfl, rfl, rfl, rfl, fun h => absurd h hmem, fun _ => ⟨rfl, rfl⟩⟩
    simp [remove_release, hne, hmem]

/-- The concrete stack state used by several witnesses: version `2.0.0`
active, versions `1.0.0` and `2.0.0` recorded. -/
def recRel (v cmd : String) : ReleaseRec :=
  { name := "stack-a", version := v, artifact_uri := "file:///tmp/" ++ v,
    checksum := "sha256:aa" ++ v, start_command := cmd, stop_command := none,
    environment := [], working_directory := none }

/-- A concrete `ReleaseSpec` for the same stack. -/
def relSpec (v cmd : String) : ReleaseSpec :=
  { name := "stack-a", version := v,
    artifact := { uri := "file:///tmp/" ++ v, checksum := "sha256:aa" ++ v },
    runtime := { start_command := cmd, stop_command := none, environment := [],
                 working_directory := none } }

/-- An idle deployment sub-document. -/
def depIdle : DeploymentDoc :=
  { state := some "idle", target_version := none, last_failure := none,
    last_failure_at := none,
    timestamps := { installed := none, activated := none, rolled_back := none } }

/-- Concrete world for the C10 witness: `2.0.0` is current, `1.0.0` has
a directory on disk. -/
def wC10 : World :=
  { doc := { current := some "2.0.0", previous := some "1.0.0",
             deployment := depIdle,
             process := { pid := some 41, started_at := some "t0" },
             releases := [("1.0.0", recRel "1.0.0" "./run-a"),
                          ("2.0.0", recRel "2.0.0" "./run-b")] },
    fs := { releaseDirs := ["1.0.0", "2.0.0"], tmpDirs := [],
            currentLink := some "releases/2.0.0",
            previousLink := some "releases/1.0.0" } }

/-- A process-free effect environment for the remove witnesses. -/
def envQuiet : Env :=
  { pidAlive := fun _ => false, downloadResult := Except.ok (),
    extractResult := Except.ok (), startResult := fun _ => Except.error "unused",
    gracePoll := fun _ _ => none, graceTicks := 0, now := "2026-01-01T00:00:00Z" }

/-- Witness for C10: removing non-current `1.0.0` from `wC10`. -/
theorem remove_non_current_no_state_write_witness :
    ∃ out w', remove_release envQuiet (relSpec "1.0.0" "./run-a") wC10 =
        Except.ok (out, w') ∧
      w'.doc = wC10.doc ∧
      alookup w'.doc.releases "1.0.0" = alookup wC10.doc.releases "1.0.0" ∧
      out = { status := "removed", message := "Release directory removed",
              version := some "1.0.0" } ∧
      w'.fs.releaseDirs = ["2.0.0"] := by
  obtain ⟨out, w', h1, h2, h3, -, -, -, h7, -⟩ :=
    remove_non_current_no_state_write envQuiet (relSpec "1.0.0" "./run-a") wC10
      (by decide)
  obtain ⟨h8, h9⟩ := h7 (by decide)
  exact ⟨out, w', h1, h2, h3, h8, by rw [h9]; decide⟩


/-! ## Claim C3: the idempotence (`noop`) path of `apply_release` -/

/-- Upserting a value already stored under the key leaves the dict
unchanged. -/
theorem aupsert_of_lookup_eq {α : Type} (l : List (String × α)) (k : String)
    (v : α) (h : alookup l k = some v) : aupsert l k v = l := by
  induction l with
  | nil => simp [alookup] at h
  | cons p rest ih =>
    obtain ⟨k1, v1⟩ := p
    by_cases hk : k1 = k
    · subst hk
      simp only [alookup, if_pos rfl] at h
      cases h
      simp [aupsert]
    · simp only [alookup, if_neg hk] at h
      simp [aupsert, hk, ih h]

/-- A concrete world for the C3 exhibits: `1.0.0` active with a live
pid, its stored record having start command `./run-a`. -/
def wC3 : World :=
  { doc := { current := some "1.0.0", previous := none, deployment := depIdle,
             process := { pid := some 7, started_at := some "t0" },
             releases := [("1.0.0", recRel "1.0.0" "./run-a")] },
    fs := { releaseDirs := ["1.0.0"], tmpDirs := [],
            currentLink := some "releases/1.0.0", previousLink := none } }

/-- An environment in which every pid probe reports alive. -/
def envAlive : Env :=
  { pidAlive := fun _ => true, downloadResult := Except.ok (),
    extractResult := Except.ok (), startResult := fun _ => Except.error "unused",
    gracePoll := fun _ _ => none, graceTicks := 0, now := "2026-01-01T00:00:00Z" }

/-- C3 counterexample: re-applying the active version (live pid) with a
changed start command returns `noop`, yet the persisted state document
is NOT unchanged — `record_release` upserted the new release record
before the idempotence check. -/
theorem apply_noop_still_writes_state :
    ∃ out w', apply_release envAlive (relSpec "1.0.0" "./run-b") wC3 =
        Except.ok (out, w') ∧
      out.status = "noop" ∧ w'.doc ≠ wC3.doc :=
  ⟨_, _, rfl, rfl, by decide⟩

/-- C3 (amended): on the noop path the call returns `noop` and its only
side effects are upserting the release record into `releases` (by
`record_release`) and sweeping stray `.tmp` release directories;
`current`, `previous`, `deployment` and `process` are untouched, and
when the stored record already equals the applied one and no stray
`.tmp` directory exists, the call changes nothing at all. -/
theorem apply_release_noop_effects (env : Env) (r : ReleaseSpec) (w : World)
    (hcur : w.doc.current = some r.version)
    (halive : is_pid_running env w.doc.process.pid = true) :
    apply_release env r w =
      Except.ok ({ status := "noop", message := "Release already active",
                   version := some r.version },
        World.mk (record_release w.doc (release_to_dict r))
          { w.fs with tmpDirs := [] }) ∧
    (record_release w.doc (release_to_dict r)).current = w.doc.current ∧
    (record_release w.doc (release_to_dict r)).previous = w.doc.previous ∧
    (record_release w.doc (release_to_dict r)).deployment = w.doc.deployment ∧
    (record_release w.doc (release_to_dict r)).process = w.doc.process ∧
    (alookup w.doc.releases r.version = some (release_to_dict r) →
      w.fs.tmpDirs = [] →
      apply_release env r w =
        Except.ok ({ status := "noop", message := "Release already active",
                     version := some r.version }, w)) := by
  have hmain : apply_release env r w =
      Except.ok ({ status := "noop", message := "Release already active",
                   version := some r.version },
        World.mk (record_release w.doc (release_to_dict r))
          { w.fs with tmpDirs := [] }) := by
    simp [apply_release, hcur, halive]
  refine ⟨hmain, rfl, rfl, rfl, rfl, ?_⟩
  intro hrec htmp
  rw [hmain]
  have h1 : record_release w.doc (release_to_dict r) = w.doc := by
    have hv : (release_to_dict r).version = r.version := rfl
    rw [record_release, hv, aupsert_of_lookup_eq _ _ _ hrec]
  have h2 : { w.fs with tmpDirs := [] } = w.fs := by
    rw [← htmp]
  rw [h1, h2]

/-- Witness for the amended C3: re-applying the already-stored record
is a pure noop. -/
theorem apply_release_noop_effects_witness :
    apply_release envAlive (relSpec "1.0.0" "./run-a") wC3 =
      Except.ok ({ status := "noop", message := "Release already active",
                   version := some "1.0.0" }, wC3) := by
  have h := apply_release_noop_effects envAlive (relSpec "1.0.0" "./run-a") wC3
    rfl rfl
  exact h.2.2.2.2.2 (by decide) rfl


/-! ## Claim C9: `needs_update` -/

/-- "Some payload of the component fails to decode or parse", in the
claim's sense: extraction yields nothing, or the extracted JSON does not
parse to a release. -/
def payloadFails (x : ComponentSpec) : Prop :=
  (extract_stack_payload x).1 = none ∨
  ∃ j, (extract_stack_payload x).1 = some j ∧
    parse_release_payload j = Except.error ()

/-- The claim's stated condition for `needs_update` being true: some
desired component is absent from current, or some name-matched pair
parses to distinct versions, or a payload of a desired or name-matched
current component fails to decode or parse. -/
def claimNeedsUpdateCondition (desired current : List ComponentSpec) : Prop :=
  (∃ d, d ∈ desired ∧ ∀ c, c ∈ current → c.name ≠ d.name) ∨
  (∃ d c, d ∈ desired ∧ c ∈ current ∧ c.name = d.name ∧
    ∃ jd jc rd rc, (extract_stack_payload d).1 = some jd ∧
      (extract_stack_payload c).1 = some jc ∧
      parse_release_payload jd = Except.ok rd ∧
      parse_release_payload jc = Except.ok rc ∧
      rd.version ≠ rc.version) ∨
  (∃ d, d ∈ desired ∧ payloadFails d) ∨
  (∃ d c, d ∈ desired ∧ c ∈ current ∧ c.name = d.name ∧ payloadFails c)

/-- C9 counterexample: a desired component with no name is skipped by
the loop, so `needs_update` is `false` even though that component is
absent from (empty) current and its payload fails to decode — the
claim's condition holds but the code returns false. -/
theorem needs_update_skips_nameless :
    claimNeedsUpdateCondition [{ name := none, data := StackData.absent }] [] ∧
    needs_update [{ name := none, data := StackData.absent }] [] = false :=
  ⟨Or.inl ⟨{ name := none, data := StackData.absent }, by simp, by simp⟩, rfl⟩

/-- What actually makes the `needs_update` loop return true at one
desired component: a truthy name together with a missing match in the
name-index of current, an untruthy/undecodable payload on either side,
a parse failure on either side, or distinct parsed versions. -/
def offendsSpec (byName : String → Option ComponentSpec) (d : ComponentSpec) : Prop :=
  nameTruthy d = true ∧
    (byName (d.name.getD "") = none ∨
     ∃ c, byName (d.name.getD "") = some c ∧
       (optTruthy (extract_stack_payload d).1 = false ∨
        optTruthy (extract_stack_payload c).1 = false ∨
        parse_release_payload ((extract_stack_payload d).1.getD JVal.null) =
          Except.error () ∨
        parse_release_payload ((extract_stack_payload c).1.getD JVal.null) =
          Except.error () ∨
        ∃ rd rc,
          parse_release_payload ((extract_stack_payload d).1.getD JVal.null) =
            Except.ok rd ∧
          parse_release_payload ((extract_stack_payload c).1.getD JVal.null) =
            Except.ok rc ∧
          rd.version ≠ rc.version))

/-- The loop returns true exactly when some desired component offends. -/
theorem needs_update_go_iff (byName : String → Option ComponentSpec) :
    ∀ ds, needs_update_go byName ds = true ↔
      ∃ d, d ∈ ds ∧ offendsSpec byName d := by
  intro ds
  induction ds with
  | nil => simp [needs_update_go]
  | cons d rest ih =>
    by_cases hnt : nameTruthy d = true
    · rw [needs_update_go, if_neg (by simp [hnt])]
      split
      next hb =>
        constructor
        · intro _
          exact ⟨d, List.mem_cons_self d rest, hnt, Or.inl hb⟩
        · intro _
          rfl
      next c hb =>
        by_cases hdp : optTruthy (extract_stack_payload d).1 = true
        · by_cases hcp : optTruthy (extract_stack_payload c).1 = true
          · rw [if_neg (by simp [hdp, hcp])]
            cases hpd : parse_release_payload ((extract_stack_payload d).1.getD JVal.null) with
            | error u =>
              constructor
              · intro _
                exact ⟨d, List.mem_cons_self d rest, hnt,
                  Or.inr ⟨c, hb, Or.inr (Or.inr (Or.inl hpd))⟩⟩
              · intro _
                rfl
            | ok rd =>
              cases hpc : parse_release_payload ((extract_stack_payload c).1.getD JVal.null) with
              | error u =>
                constructor
                · intro _
                  exact ⟨d, List.mem_cons_self d rest, hnt,
                    Or.inr ⟨c, hb, Or.inr (Or.inr (Or.inr (Or.inl hpc)))⟩⟩
                · intro _
                  rfl
              | ok rc =>
                by_cases hv : rd.version = rc.version
                · show (if rd.version ≠ rc.version then true
                      else needs_update_go byName rest) = true ↔ _
                  rw [if_neg (by simp [hv]), ih]
                  constructor
                  · rintro ⟨x, hx, hoff⟩
                    exact ⟨x, List.mem_cons_of_mem d hx, hoff⟩
                  · rintro ⟨x, hx, hoff⟩
                    rcases List.mem_cons.mp hx with hxd | hxr
                    · exfalso
                      subst hxd
                      rcases hoff.2 with habs | ⟨c2, hc2, hbad⟩
                      · rw [hb] at habs
                        exact Option.noConfusion habs
                      · rw [hb] at hc2
                        cases hc2
                        rcases hbad with h1 | h1 | h1 | h1 | ⟨rd2, rc2, h1, h2, h3⟩
                        · rw [hdp] at h1
                          exact Bool.noConfusion h1
                        · rw [hcp] at h1
                          exact Bool.noConfusion h1
                        · rw [hpd] at h1
                          exact Except.noConfusion h1
                        · rw [hpc] at h1
                          exact Except.noConfusion h1
                        · rw [hpd] at h1
                          rw [hpc] at h2
                          cases h1
                          cases h2
                          exact h3 hv
                    · exact ⟨x, hxr, hoff⟩
                · constructor
                  · intro _
                    exact ⟨d, List.mem_cons_self d rest, hnt,
                      Or.inr ⟨c, hb, Or.inr (Or.inr (Or.inr (Or.inr
                        ⟨rd, rc, hpd, hpc, hv⟩)))⟩⟩
                  · intro _
                    show (if rd.version ≠ rc.version then true
                        else needs_update_go byName rest) = true
                    rw [if_pos hv]
          · rw [if_pos (Or.inr hcp)]
            constructor
            · intro _
              refine ⟨d, List.mem_cons_self d rest, hnt,
                Or.inr ⟨c, hb, Or.inr (Or.inl ?_)⟩⟩
              simpa using hcp
            · intro _
              rfl
        · rw [if_pos (Or.inl hdp)]
          constructor
          · intro _
            refine ⟨d, List.mem_cons_self d rest, hnt,
              Or.inr ⟨c, hb, Or.inl ?_⟩⟩
            simpa using hdp
          · intro _
            rfl
    · rw [needs_update_go, if_pos (by simp [hnt])]
      rw [ih]
      constructor
      · rintro ⟨x, hx, hoff⟩
        exact ⟨x, List.mem_cons_of_mem d hx, hoff⟩
      · rintro ⟨x, hx, hoff⟩
        rcases List.mem_cons.mp hx with hxd | hxr
        · exfalso
          subst hxd
          exact hnt hoff.1
        · exact ⟨x, hxr, hoff⟩

/-- C9 (amended): `needs_update` is true iff some desired component
*with a truthy name* is absent from the name-index of current, or its
payload or its match's payload is untruthy or fails to parse, or the
two parse to distinct versions; components without a name are skipped,
and current components are matched through the last-wins name index. -/
theorem needs_update_iff_offender (desired current : List ComponentSpec) :
    needs_update desired current = true ↔
      ∃ d, d ∈ desired ∧ offendsSpec (currentByName current) d :=
  needs_update_go_iff (currentByName current) desired


/-! ## Claim C1: rollback after a grace-window exit -/

/-- Upserting under one key leaves every other key's lookup unchanged. -/
theorem alookup_aupsert_ne {α : Type} (l : List (String × α)) (k k' : String)
    (v : α) (h : k' ≠ k) : alookup (aupsert l k v) k' = alookup l k' := by
  induction l with
  | nil =>
    simp only [aupsert, alookup]
    rw [if_neg (Ne.symm h)]
  | cons p rest ih =>
    obtain ⟨k1, v1⟩ := p
    by_cases hk : k1 = k
    · subst hk
      simp [aupsert, alookup, Ne.symm h]
    · simp only [aupsert, if_neg hk, alookup]
      by_cases hk' : k1 = k'
      · simp [hk']
      · simp [hk', ih]

/-- `_activate_release` on an existing release directory: succeeds, the
`current` symlink ends at `releases/<v>`, and the directory sets are
untouched. -/
theorem activate_release_ok (fs : FS) (v : String) (h : v ∈ fs.releaseDirs) :
    ∃ fs', activate_release fs v = Except.ok fs' ∧
      fs'.currentLink = some ("releases/" ++ v) ∧
      fs'.releaseDirs = fs.releaseDirs ∧ fs'.tmpDirs = fs.tmpDirs := by
  cases hc : fs.currentLink with
  | none =>
    exact ⟨{ fs with currentLink := some ("releases/" ++ v) },
      by simp [activate_release, h, hc], rfl, rfl, rfl⟩
  | some t =>
    by_cases ht : t = "releases/" ++ v
    · refine ⟨fs, by simp [activate_release, h, hc, ht], ?_, rfl, rfl⟩
      rw [hc, ht]
    · exact ⟨FS.mk fs.releaseDirs fs.tmpDirs (some ("releases/" ++ v)) (some t),
        by simp [activate_release, h, hc, ht], rfl, rfl, rfl⟩

/-- A start attempt whose child exits inside the grace window is a
start failure carrying the wait's reason. -/
theorem start_attempt_grace_fail (env : Env) (k : Nat) (release : ReleaseSpec)
    (doc : StackState) (pid : Nat) (hs : env.startResult k = Except.ok pid)
    (hg : (wait_for_grace (env.gracePoll k) env.graceTicks).1 = true) :
    start_attempt env k release doc =
      Sum.inl ((wait_for_grace (env.gracePoll k) env.graceTicks).2,
        update_deployment_state
          (update_process
            (update_deployment_state doc "starting" (some release.version) none env.now)
            (some pid) (some env.now))
          "failed" (some release.version)
          (some (wait_for_grace (env.gracePoll k) env.graceTicks).2) env.now) := by
  simp [start_attempt, hs, hg]

/-- A start attempt that spawns and survives the grace window reaches
`running` with the pid recorded. -/
theorem start_attempt_grace_ok (env : Env) (k : Nat) (release : ReleaseSpec)
    (doc : StackState) (pid : Nat) (hs : env.startResult k = Except.ok pid)
    (hg : (wait_for_grace (env.gracePoll k) env.graceTicks).1 = false) :
    start_attempt env k release doc =
      Sum.inr (update_process
        (update_deployment_state doc "starting" (some release.version) none env.now)
        (some pid) (some env.now)) := by
  simp [start_attempt, hs, hg]

/-- `_rollback_to` with a truthy, recoverable previous version whose
directory exists and whose restart survives the grace window: returns
`rolled_back`, flips `current` back, persists
`set_current(previous, failed)` and the rollback timestamp, and leaves
`deployment.state` at `starting` (the restart's last transition). -/
theorem rollback_to_ok (env : Env) (k : Nat) (pv : String)
    (failedRelease : ReleaseSpec) (doc : StackState) (fs : FS) (reason : String)
    (rrec : ReleaseRec) (pid : Nat)
    (hpv : pv ≠ "")
    (hrec : alookup doc.releases pv = some rrec)
    (hdir : pv ∈ fs.releaseDirs)
    (hs : env.startResult k = Except.ok pid)
    (hg : (wait_for_grace (env.gracePoll k) env.graceTicks).1 = false) :
    ∃ doc' fs', rollback_to env k (some pv) failedRelease doc fs reason =
        Except.ok ({ status := "rolled_back",
                     message := "Rollback succeeded: " ++ reason,
                     version := some pv }, doc', fs') ∧
      fs'.currentLink = some ("releases/" ++ pv) ∧
      fs'.releaseDirs = fs.releaseDirs ∧
      doc'.current = some pv ∧
      doc'.previous = some failedRelease.version ∧
      doc'.deployment.timestamps.rolled_back = some env.now ∧
      doc'.deployment.state = some "starting" ∧
      doc'.releases = doc.releases := by
  obtain ⟨fs1, hact, hcl, hrd, -⟩ := activate_release_ok fs pv hdir
  have hrel : release_from_state doc pv =
      some { name := rrec.name, version := rrec.version,
             artifact := { uri := rrec.artifact_uri, checksum := rrec.checksum },
             runtime := { start_command := rrec.start_command,
                          stop_command := rrec.stop_command,
                          environment := rrec.environment,
                          working_directory := rrec.working_directory } } := by
    simp [release_from_state, hrec]
  have hsa := start_attempt_grace_ok env k
    { name := rrec.name, version := rrec.version,
      artifact := { uri := rrec.artifact_uri, checksum := rrec.checksum },
      runtime := { start_command := rrec.start_command,
                   stop_command := rrec.stop_command,
                   environment := rrec.environment,
                   working_directory := rrec.working_directory } }
    (record_rollback_timestamp
      (set_current
        (update_deployment_state doc "rollback" (some pv) (some reason) env.now)
        (some pv) (some failedRelease.version) env.now)
      (some pv) env.now)
    pid hs hg
  refine ⟨update_process (update_deployment_state (record_rollback_timestamp
      (set_current (update_deployment_state doc "rollback" (some pv) (some reason) env.now)
        (some pv) (some failedRelease.version) env.now) (some pv) env.now)
      "starting" (some rrec.version) none env.now) (some pid) (some env.now),
    fs1, ?_, hcl, hrd, ?_, ?_, ?_, ?_, ?_⟩
  · simp only [rollback_to]
    rw [if_neg (by simp [strTruthy, hpv])]
    simp only [Option.getD_some, hrel, hact, hsa]
  · simp [update_process, update_deployment_state, record_rollback_timestamp,
      set_current]
  · simp [update_process, update_deployment_state, record_rollback_timestamp,
      set_current]
  · simp [update_process, update_deployment_state, record_rollback_timestamp,
      set_current, strTruthy, hpv]
  · simp [update_process, update_deployment_state, record_rollback_timestamp,
      set_current]
  · simp [update_process, update_deployment_state, record_rollback_timestamp,
      set_current, strTruthy, hpv]


/-- Frame lemmas: which store mutators leave `releases` untouched. -/
theorem set_current_releases (d : StackState) (c p : Option String) (n : String) :
    (set_current d c p n).releases = d.releases := rfl

/-- `update_deployment_state` never touches `releases`. -/
theorem update_deployment_state_releases (d : StackState) (s : String)
    (t f : Option String) (n : String) :
    (update_deployment_state d s t f n).releases = d.releases := rfl

/-- `record_install_timestamp` never touches `releases`. -/
theorem record_install_timestamp_releases (d : StackState) (v n : String) :
    (record_install_timestamp d v n).releases = d.releases := rfl

/-- `record_release` upserts exactly the release record. -/
theorem record_release_releases (d : StackState) (rec : ReleaseRec) :
    (record_release d rec).releases = aupsert d.releases rec.version rec := rfl

/-- `_stop_current_process` never touches `releases`. -/
theorem stop_current_process_releases (a b : StackState) :
    (stop_current_process a b).releases = b.releases :=
  (stop_current_process_frame a b).2.2.2

/-- `_start_release` with a truthy rollback target when the child exits
inside the grace window: rolls back to the target and reports
`rolled_back` carrying the grace-failure reason. -/
theorem start_release_rolls_back (env : Env) (r : ReleaseSpec)
    (doc5 : StackState) (pv : String) (fs2 : FS) (rrec : ReleaseRec)
    (pid0 pid1 : Nat)
    (hpd : pv ∈ fs2.releaseDirs)
    (hrec5 : alookup doc5.releases pv = some rrec)
    (hpv : pv ≠ "")
    (hs0 : env.startResult 0 = Except.ok pid0)
    (hg0 : (wait_for_grace (env.gracePoll 0) env.graceTicks).1 = true)
    (hs1 : env.startResult 1 = Except.ok pid1)
    (hg1 : (wait_for_grace (env.gracePoll 1) env.graceTicks).1 = false) :
    ∃ doc' fs', start_release env 0 r doc5 (some pv) fs2 =
        Except.ok ({ status := "rolled_back",
                     message := "Rollback succeeded: " ++
                       (wait_for_grace (env.gracePoll 0) env.graceTicks).2,
                     version := some pv }, doc', fs') ∧
      fs'.currentLink = some ("releases/" ++ pv) ∧
      doc'.current = some pv ∧
      doc'.previous = some r.version ∧
      doc'.deployment.timestamps.rolled_back = some env.now ∧
      doc'.deployment.state = some "starting" := by
  have hdocF : alookup (update_deployment_state
      (update_process
        (update_deployment_state doc5 "starting" (some r.version) none env.now)
        (some pid0) (some env.now))
      "failed" (some r.version)
      (some (wait_for_grace (env.gracePoll 0) env.graceTicks).2) env.now).releases pv =
        some rrec := by
    simpa [update_deployment_state, update_process] using hrec5
  obtain ⟨doc', fs', heq, hcl, -, hcur, hprev, hts, hst, -⟩ :=
    rollback_to_ok env 1 pv r
      (update_deployment_state
        (update_process
          (update_deployment_state doc5 "starting" (some r.version) none env.now)
          (some pid0) (some env.now))
        "failed" (some r.version)
        (some (wait_for_grace (env.gracePoll 0) env.graceTicks).2) env.now)
      fs2 ((wait_for_grace (env.gracePoll 0) env.graceTicks).2)
      rrec pid1 hpv hdocF hpd hs1 hg1
  refine ⟨doc', fs', ?_, hcl, hcur, hprev, hts, hst⟩
  simp only [start_release, start_attempt_grace_fail env 0 r doc5 pid0 hs0 hg0]
  rw [if_neg (by simp [strTruthy, hpv])]
  exact heq


set_option maxHeartbeats 1000000

/-- C1 (amended): for every `apply_release` of a release whose started
process exits inside the grace window, when the computed previous
version is truthy, recoverable from the `releases` map, distinct from
the applied version and still has its release directory, and the
rollback restart spawns and survives the grace window, the engine flips
the `current` symlink back to the previous version, persists
`set_current(previous, failed)`, records the rollback timestamp, and
returns `rolled_back` — with the persisted `deployment.state` left at
`starting` (never set to `running` on the rollback path). -/
theorem apply_release_rolls_back (env : Env) (r : ReleaseSpec) (w : World)
    (pv : String) (rrec : ReleaseRec) (pid0 pid1 : Nat)
    (hnoop : ¬ (w.doc.current = some r.version ∧
      is_pid_running env w.doc.process.pid = true))
    (hinst : r.version ∈ w.fs.releaseDirs ∨
      (env.downloadResult = Except.ok () ∧ env.extractResult = Except.ok ()))
    (hprev : (if strTruthy w.doc.current = true ∧ w.doc.current ≠ some r.version
      then w.doc.current else w.doc.previous) = some pv)
    (hpv : pv ≠ "") (hpvne : pv ≠ r.version)
    (hrec : alookup w.doc.releases pv = some rrec)
    (hpvdir : pv ∈ w.fs.releaseDirs)
    (hs0 : env.startResult 0 = Except.ok pid0)
    (hg0 : (wait_for_grace (env.gracePoll 0) env.graceTicks).1 = true)
    (hs1 : env.startResult 1 = Except.ok pid1)
    (hg1 : (wait_for_grace (env.gracePoll 1) env.graceTicks).1 = false) :
    ∃ w', apply_release env r w = Except.ok
        ({ status := "rolled_back",
           message := "Rollback succeeded: " ++
             (wait_for_grace (env.gracePoll 0) env.graceTicks).2,
           version := some pv }, w') ∧
      w'.fs.currentLink = some ("releases/" ++ pv) ∧
      w'.doc.current = some pv ∧
      w'.doc.previous = some r.version ∧
      w'.doc.deployment.timestamps.rolled_back = some env.now ∧
      w'.doc.deployment.state = some "starting" := by
  simp only [apply_release]
  rw [if_neg hnoop]
  by_cases hdir : r.version ∈ w.fs.releaseDirs
  · rw [if_pos hdir]
    by_cases hstop : (strTruthy w.doc.current = true ∧ w.doc.current ≠ some r.version)
    · simp only [if_pos hstop]
      have hprev2 : w.doc.current = some pv := by rwa [if_pos hstop] at hprev
      simp only [hprev2, Option.getD_some, release_from_state, hrec]
      obtain ⟨fs2, hact, hcl2, hrd2, -⟩ := activate_release_ok
        (FS.mk w.fs.releaseDirs [] w.fs.currentLink w.fs.previousLink) r.version hdir
      rw [hact]
      simp only []
      have hrel5 : alookup (set_current
          (update_deployment_state
            (stop_current_process w.doc (record_release w.doc (release_to_dict r)))
            "activating" (some r.version) none env.now)
          (some r.version) (some pv) env.now).releases pv = some rrec := by
        simp only [set_current_releases, update_deployment_state_releases,
          stop_current_process_releases, record_release_releases]
        have hv : (release_to_dict r).version = r.version := rfl
        rw [hv, alookup_aupsert_ne _ _ _ _ hpvne]
        exact hrec
      obtain ⟨doc', fs', hsr, hfc, hc1, hp1, hts1, hst1⟩ :=
        start_release_rolls_back env r _ pv fs2 rrec pid0 pid1
          (by rw [hrd2]; exact hpvdir) hrel5 hpv hs0 hg0 hs1 hg1
      rw [hsr]
      simp only []
      refine ⟨World.mk doc' fs', ?_, hfc, hc1, hp1, hts1, hst1⟩
      rw [if_pos (by decide)]
    · simp only [if_neg hstop]
      have hprev2 : w.doc.previous = some pv := by rwa [if_neg hstop] at hprev
      simp only [hprev2]
      obtain ⟨fs2, hact, hcl2, hrd2, -⟩ := activate_release_ok
        (FS.mk w.fs.releaseDirs [] w.fs.currentLink w.fs.previousLink) r.version hdir
      rw [hact]
      simp only []
      have hrel5 : alookup (set_current
          (update_deployment_state (record_release w.doc (release_to_dict r))
            "activating" (some r.version) none env.now)
          (some r.version) (some pv) env.now).releases pv = some rrec := by
        simp only [set_current_releases, update_deployment_state_releases,
          record_release_releases]
        have hv : (release_to_dict r).version = r.version := rfl
        rw [hv, alookup_aupsert_ne _ _ _ _ hpvne]
        exact hrec
      obtain ⟨doc', fs', hsr, hfc, hc1, hp1, hts1, hst1⟩ :=
        start_release_rolls_back env r _ pv fs2 rrec pid0 pid1
          (by rw [hrd2]; exact hpvdir) hrel5 hpv hs0 hg0 hs1 hg1
      rw [hsr]
      simp only []
      refine ⟨World.mk doc' fs', ?_, hfc, hc1, hp1, hts1, hst1⟩
      rw [if_pos (by decide)]
  · obtain ⟨hdl, hex⟩ := hinst.resolve_left hdir
    rw [if_neg hdir]
    simp only [install_release, hdl, hex, List.erase_nil]
    by_cases hstop : (strTruthy w.doc.current = true ∧ w.doc.current ≠ some r.version)
    · simp only [if_pos hstop]
      have hprev2 : w.doc.current = some pv := by rwa [if_pos hstop] at hprev
      simp only [hprev2, Option.getD_some, release_from_state, hrec]
      obtain ⟨fs2, hact, hcl2, hrd2, -⟩ := activate_release_ok
        (FS.mk (r.version :: w.fs.releaseDirs) [] w.fs.currentLink w.fs.previousLink)
        r.version (List.mem_cons_self r.version w.fs.releaseDirs)
      rw [hact]
      simp only []
      have hrel5 : alookup (set_current
          (update_deployment_state
            (stop_current_process w.doc
              (record_install_timestamp
                (update_deployment_state (record_release w.doc (release_to_dict r))
                  "installing" (some r.version) none env.now)
                r.version env.now))
            "activating" (some r.version) none env.now)
          (some r.version) (some pv) env.now).releases pv = some rrec := by
        simp only [set_current_releases, update_deployment_state_releases,
          stop_current_process_releases, record_install_timestamp_releases,
          record_release_releases]
        have hv : (release_to_dict r).version = r.version := rfl
        rw [hv, alookup_aupsert_ne _ _ _ _ hpvne]
        exact hrec
      obtain ⟨doc', fs', hsr, hfc, hc1, hp1, hts1, hst1⟩ :=
        start_release_rolls_back env r _ pv fs2 rrec pid0 pid1
          (by rw [hrd2]; exact List.mem_cons_of_mem r.version hpvdir)
          hrel5 hpv hs0 hg0 hs1 hg1
      rw [hsr]
      simp only []
      refine ⟨World.mk doc' fs', ?_, hfc, hc1, hp1, hts1, hst1⟩
      rw [if_pos (by decide)]
    · simp only [if_neg hstop]
      have hprev2 : w.doc.previous = some pv := by rwa [if_neg hstop] at hprev
      simp only [hprev2]
      obtain ⟨fs2, hact, hcl2, hrd2, -⟩ := activate_release_ok
        (FS.mk (r.version :: w.fs.releaseDirs) [] w.fs.currentLink w.fs.previousLink)
        r.version (List.mem_cons_self r.version w.fs.releaseDirs)
      rw [hact]
      simp only []
      have hrel5 : alookup (set_current
          (update_deployment_state
            (record_install_timestamp
              (update_deployment_state (record_release w.doc (release_to_dict r))
                "installing" (some r.version) none env.now)
              r.version env.now)
            "activating" (some r.version) none env.now)
          (some r.version) (some pv) env.now).releases pv = some rrec := by
        simp only [set_current_releases, update_deployment_state_releases,
          record_install_timestamp_releases, record_release_releases]
        have hv : (release_to_dict r).version = r.version := rfl
        rw [hv, alookup_aupsert_ne _ _ _ _ hpvne]
        exact hrec
      obtain ⟨doc', fs', hsr, hfc, hc1, hp1, hts1, hst1⟩ :=
        start_release_rolls_back env r _ pv fs2 rrec pid0 pid1
          (by rw [hrd2]; exact List.mem_cons_of_mem r.version hpvdir)
          hrel5 hpv hs0 hg0 hs1 hg1
      rw [hsr]
      simp only []
      refine ⟨World.mk doc' fs', ?_, hfc, hc1, hp1, hts1, hst1⟩
      rw [if_pos (by decide)]


/-- Concrete world for the C1 exhibits: `1.0.0` running. -/
def wC1 : World :=
  { doc := { current := some "1.0.0", previous := none, deployment := depIdle,
             process := { pid := some 5, started_at := some "t0" },
             releases := [("1.0.0", recRel "1.0.0" "./run-a")] },
    fs := { releaseDirs := ["1.0.0"], tmpDirs := [],
            currentLink := some "releases/1.0.0", previousLink := none } }

/-- Effects for the C1 exhibits: the new release's child (start 0)
exits with code 1 at the first grace poll; the rollback restart
(start 1) stays up. -/
def envC1 : Env :=
  { pidAlive := fun _ => true, downloadResult := Except.ok (),
    extractResult := Except.ok (),
    startResult := fun k => Except.ok (10 + k),
    gracePoll := fun k _ => if k = 0 then some 1 else none,
    graceTicks := 1, now := "T1" }

/-- C1 counterexample: on this concrete rollback run the call returns
`rolled_back`, flips `current` back and stamps the rollback timestamp,
but the persisted `deployment.state` is `"starting"`, not `"running"`
as the claim states. -/
theorem rollback_leaves_state_starting :
    ∃ w', apply_release envC1 (relSpec "1.0.1" "false") wC1 = Except.ok
        ({ status := "rolled_back",
           message := "Rollback succeeded: Process exited with 1",
           version := some "1.0.0" }, w') ∧
      w'.fs.currentLink = some "releases/1.0.0" ∧
      w'.doc.current = some "1.0.0" ∧
      w'.doc.deployment.timestamps.rolled_back = some "T1" ∧
      w'.doc.deployment.state = some "starting" ∧
      w'.doc.deployment.state ≠ some "running" :=
  ⟨_, rfl, rfl, rfl, rfl, rfl, by decide⟩

/-- Witness for the amended C1 at the concrete rollback run. -/
theorem apply_release_rolls_back_witness :
    ∃ w', apply_release envC1 (relSpec "1.0.1" "false") wC1 = Except.ok
        ({ status := "rolled_back",
           message := "Rollback succeeded: " ++
             (wait_for_grace (envC1.gracePoll 0) envC1.graceTicks).2,
           version := some "1.0.0" }, w') ∧
      w'.fs.currentLink = some ("releases/" ++ "1.0.0") ∧
      w'.doc.current = some "1.0.0" ∧
      w'.doc.previous = some "1.0.1" ∧
      w'.doc.deployment.timestamps.rolled_back = some envC1.now ∧
      w'.doc.deployment.state = some "starting" :=
  apply_release_rolls_back envC1 (relSpec "1.0.1" "false") wC1 "1.0.0"
    (recRel "1.0.0" "./run-a") 10 11 (by decide) (Or.inr ⟨rfl, rfl⟩) (by decide)
    (by decide) (by decide) rfl (by decide) rfl (by decide) rfl rfl

/-! ## Claim C6: exception propagation across the engine boundary -/

/-- The only exception `_activate_release` raises is the
missing-release-directory error. -/
theorem activate_release_error (fs : FS) (v : String) (e : String)
    (he : activate_release fs v = Except.error e) :
    e = "Release directory releases/" ++ v ++ " not found" := by
  by_cases h : v ∈ fs.releaseDirs
  · rw [activate_release, if_pos h] at he
    split at he
    next t heq =>
      by_cases hf : t = "releases/" ++ v <;> simp [hf] at he
    next heq => simp at he
  · rw [activate_release, if_neg h] at he
    simp only [Except.error.injEq] at he
    exact he.symm

/-- The only exception escaping `_rollback_to` is a
missing-release-directory error from re-activating the target. -/
theorem rollback_to_error (env : Env) (k : Nat) (pvo : Option String)
    (fr : ReleaseSpec) (doc : StackState) (fs : FS) (reason : String)
    (e : String)
    (he : rollback_to env k pvo fr doc fs reason = Except.error e) :
    ∃ v, e = "Release directory releases/" ++ v ++ " not found" := by
  simp only [rollback_to] at he
  split at he
  · simp at he
  · split at he
    · simp at he
    · split at he
      next e' hact =>
        simp only [Except.error.injEq] at he
        exact ⟨pvo.getD "", he ▸ activate_release_error _ _ _ hact⟩
      next fs1 hact =>
        split at he <;> simp at he

/-- The only exception escaping `_start_release` comes from
`_rollback_to`'s re-activation. -/
theorem start_release_error (env : Env) (k : Nat) (r : ReleaseSpec)
    (doc : StackState) (pvo : Option String) (fs : FS) (e : String)
    (he : start_release env k r doc pvo fs = Except.error e) :
    ∃ v, e = "Release directory releases/" ++ v ++ " not found" := by
  simp only [start_release] at he
  split at he
  · simp at he
  · split at he
    · simp at he
    · exact rollback_to_error _ _ _ _ _ _ _ _ he

/-- C6 (amended): the engine does NOT convert every internal exception
into an outcome — the one escape is a missing-release-directory error
raised while re-activating the previous release during rollback;
`apply_release` raises nothing else, and `remove_release` (with state
persistence modelled infallible) always returns an outcome. -/
theorem engine_exception_boundary (env : Env) (r : ReleaseSpec) (w : World) :
    (∀ e, apply_release env r w = Except.error e →
      ∃ v, e = "Release directory releases/" ++ v ++ " not found") ∧
    (∃ out w', remove_release env r w = Except.ok (out, w')) := by
  constructor
  · intro e he
    simp only [apply_release] at he
    split at he
    · simp at he
    · split at he
      · simp at he
      · split at he
        · simp at he
        · split at he
          next e' hsr =>
            simp only [Except.error.injEq] at he
            exact he ▸ start_release_error _ _ _ _ _ _ _ hsr
          next out1 d6 f3 hsr =>
            split at he <;> simp at he
  · by_cases hcur : w.doc.current = some r.version
    · refine ⟨DeploymentOutcome.mk "stopped" "Release stopped" (some r.version),
        World.mk (set_current (stop_current_process w.doc w.doc) none
          w.doc.previous env.now) { w.fs with currentLink := none }, ?_⟩
      simp [remove_release, hcur]
    · by_cases hmem : r.version ∈ w.fs.releaseDirs
      · refine ⟨DeploymentOutcome.mk "removed" "Release directory removed"
          (some r.version),
          World.mk w.doc { w.fs with releaseDirs := w.fs.releaseDirs.erase r.version },
          ?_⟩
        simp [remove_release, hcur, hmem]
      · refine ⟨DeploymentOutcome.mk "noop" "Release not active" (some r.version),
          w, ?_⟩
        simp [remove_release, hcur, hmem]


/-- Concrete world for the C6 counterexample: `2.0.0` current with a
dead pid; `1.0.0` recorded in `releases` but its release directory
purged (as a `remove_release` of the non-current `1.0.0` leaves it). -/
def wC6 : World :=
  { doc := { current := some "2.0.0", previous := some "1.0.0",
             deployment := depIdle,
             process := { pid := some 5, started_at := some "t0" },
             releases := [("1.0.0", recRel "1.0.0" "./run-a"),
                          ("2.0.0", recRel "2.0.0" "./run-b")] },
    fs := { releaseDirs := ["2.0.0"], tmpDirs := [],
            currentLink := some "releases/2.0.0", previousLink := none } }

/-- Effects for the C6 counterexample: the restarted current exits with
code 1 at the first grace poll. -/
def envC6 : Env :=
  { pidAlive := fun _ => false, downloadResult := Except.ok (),
    extractResult := Except.ok (),
    startResult := fun _ => Except.ok 11,
    gracePoll := fun _ _ => some 1,
    graceTicks := 1, now := "T2" }

/-- C6 counterexample: re-applying the current release with a dead pid
and a failing start triggers rollback to `1.0.0`, whose directory is
missing — `_rollback_to` re-activates it WITHOUT a try/except and the
`RuntimeError` escapes `apply_release` to the caller (the reconciliation
adapter indeed wraps engine calls in its own try/except). -/
theorem engine_exception_escapes :
    apply_release envC6 (relSpec "2.0.0" "./run-b") wC6 =
      Except.error "Release directory releases/1.0.0 not found" := rfl

end Agent
